import Mathlib

/-!
Shallow embedding of the `macro_input` crate's validated-prompt-retry loops
(`read_input` in `src/lib.rs`, the `safe_input!` macro in
`src/thread_safe_input.rs`, the `input_async!` macro in `src/async_input.rs`),
together with theorems settling the specification's claims about them.

Modelling choices:
* The line-oriented input source is a list of read results, each either
  `Except.error e` (a failing `read_line` call whose `io::Error` displays as
  `e`) or `Except.ok line` (a successful `read_line`, the raw line including
  its trailing newline).  An exhausted source models end-of-stream: in Rust,
  `read_line` at EOF returns `Ok(0)` leaving the buffer empty, so reading from
  the empty list yields `Except.ok ""`.
* The generic target type `T : FromStr` becomes a type parameter `α` together
  with its canonical conversion `parse : String → Except String α`, the error
  case carrying the `Display` text of `T::Err`.  `type_name::<T>()` /
  `stringify!($ty)` become the string parameter `tyName`.
* Rust's `str::trim` is modelled by `rustTrim`, dropping Unicode-whitespace
  characters from both ends (`Char.isWhitespace` on the ASCII inputs used
  here agrees with Rust's `char::is_whitespace`).
* All writes to stdout/stderr and all error-observer invocations are recorded
  in an event trace; the loops are run with explicit fuel, `none` (for the
  returned value) meaning the loop did not return within that much fuel.
* `INPUT_LOCK.lock().unwrap()` in `safe_input!` is modelled by a
  `lockPoisoned` flag: the panic on a poisoned lock surfaces as
  `Except.error SafeError.lockPoisoned` and nothing of the loop runs.
-/

namespace MacroInput

instance {ε α : Type} [DecidableEq ε] [DecidableEq α] : DecidableEq (Except ε α) := fun
  | Except.ok a, Except.ok b =>
      if h : a = b then Decidable.isTrue (by rw [h]) else Decidable.isFalse (by simp [h])
  | Except.error a, Except.error b =>
      if h : a = b then Decidable.isTrue (by rw [h]) else Decidable.isFalse (by simp [h])
  | Except.ok _, Except.error _ => Decidable.isFalse (by simp)
  | Except.error _, Except.ok _ => Decidable.isFalse (by simp)

/-- One read attempt handed out by the input source: `Except.error e` is a
failing `read_line` call, `Except.ok line` a successful one (raw line, with
trailing newline). -/
abbrev Source := List (Except String String)

/-- `read_line` against the remaining source.  An exhausted source is
end-of-stream: Rust's `read_line` then returns `Ok(0)` with an empty buffer,
hence `Except.ok ""`. -/
def readLineFrom : Source → Except String String × Source
  | [] => (Except.ok "", [])
  | r :: rest => (r, rest)

/-- Drop leading whitespace characters (the head end of `str::trim`). -/
def dropLeadingWs : List Char → List Char
  | [] => []
  | c :: cs => if c.isWhitespace then dropLeadingWs cs else c :: cs

/-- Model of Rust's `str::trim`: whitespace removed from both ends. -/
def rustTrim (s : String) : String :=
  String.mk ((dropLeadingWs ((dropLeadingWs s.data).reverse)).reverse)

/-- An error value handed to the user-supplied error observer. -/
inductive ObsError where
  | readErr (e : String)
  | convErr (e : String)
deriving DecidableEq

/-- Observable actions of one run: prompts and diagnostics written to the
sink, observer invocations, and assignments to the destination variable. -/
inductive Event (α : Type) where
  | prompt (desc tyName : String)
  | diagnostic (msg : String)
  | observe (e : ObsError)
  | assign (v : α)
deriving DecidableEq

/-- `write!(writer, "{} ({}): ", desc, type_name::<T>())` — the prompt text. -/
def prompt_text (desc tyName : String) : String :=
  desc ++ " (" ++ tyName ++ "): "

/-- `lib.rs:110-115`: `writeln!(writer, "Invalid input '{}'. Expected type. Error: {}", buffer, err)`.
Note the format string interpolates no type name after "Expected type." -/
def read_input_diag (buffer err : String) : String :=
  "Invalid input '" ++ buffer ++ "'. Expected type. Error: " ++ err

/-- `thread_safe_input.rs:118-123` / `async_input.rs:81-87`:
`"Invalid input '{}'. Expected type: {}. Error: {}"` with the trimmed input,
`stringify!($ty)` and the conversion error. -/
def macro_conv_diag (input tyName err : String) : String :=
  "Invalid input '" ++ input ++ "'. Expected type: " ++ tyName ++ ". Error: " ++ err

/-- `thread_safe_input.rs:106`: `eprintln!("Failed to read line: {}", err)`. -/
def safe_read_fail_diag (err : String) : String :=
  "Failed to read line: " ++ err

/-- `async_input.rs:69`: `eprintln!("Input read error: {}", err)`. -/
def async_read_fail_diag (err : String) : String :=
  "Input read error: " ++ err

/-- `pub(crate) fn read_input` of `src/lib.rs`, lines 88-122, run with fuel.
Returns the value produced (`none` if the loop did not return within the
fuel) and the trace of events.  Faithful points: on a failing `read_line`
the source's `if let Some(f) = &on_error {}` has an empty body and writes
nothing, so the branch only re-enters the loop; on a conversion failure the
`if let Some(f) = &on_error.as_mut() {...}` body is likewise empty (it holds
only a comment), so the observer parameter `hasObserver` never produces an
`Event.observe`. -/
def read_input {α : Type} (parse : String → Except String α) (desc tyName : String)
    (hasObserver : Bool) : Source → Nat → Option α × List (Event α)
  | _, 0 => (none, [])
  | src, fuel + 1 =>
    match readLineFrom src with
    | (Except.error _e, rest) =>
        ((read_input parse desc tyName hasObserver rest fuel).1,
          Event.prompt desc tyName :: (read_input parse desc tyName hasObserver rest fuel).2)
    | (Except.ok line, rest) =>
        match parse (rustTrim line) with
        | Except.ok val => (some val, [Event.prompt desc tyName])
        | Except.error err =>
            ((read_input parse desc tyName hasObserver rest fuel).1,
              Event.prompt desc tyName
                :: Event.diagnostic (read_input_diag (rustTrim line) err)
                :: (read_input parse desc tyName hasObserver rest fuel).2)

/-- The retry loop of the four-argument `safe_input!` expansion
(`src/thread_safe_input.rs`, lines 100-127), run with fuel against the
destination variable's current value `field`.  Result: the destination's
final value, the value the loop broke with (`none` if it did not break
within the fuel), and the event trace.  `$field = val` happens only in the
`Ok` branch, recorded as `Event.assign`; both failure branches write a
diagnostic and call `$on_error`. -/
def safe_input_loop {α : Type} (parse : String → Except String α) (desc tyName : String)
    (field : α) : Source → Nat → α × Option α × List (Event α)
  | _, 0 => (field, none, [])
  | src, fuel + 1 =>
    match readLineFrom src with
    | (Except.error err, rest) =>
        ((safe_input_loop parse desc tyName field rest fuel).1,
          (safe_input_loop parse desc tyName field rest fuel).2.1,
          Event.prompt desc tyName
            :: Event.diagnostic (safe_read_fail_diag err)
            :: Event.observe (ObsError.readErr err)
            :: (safe_input_loop parse desc tyName field rest fuel).2.2)
    | (Except.ok line, rest) =>
        match parse (rustTrim line) with
        | Except.ok val => (val, some val, [Event.prompt desc tyName, Event.assign val])
        | Except.error e =>
            ((safe_input_loop parse desc tyName field rest fuel).1,
              (safe_input_loop parse desc tyName field rest fuel).2.1,
              Event.prompt desc tyName
                :: Event.diagnostic (macro_conv_diag (rustTrim line) tyName e)
                :: Event.observe (ObsError.convErr e)
                :: (safe_input_loop parse desc tyName field rest fuel).2.2)

/-- Outcome of `safe_input!`: the `.lock().unwrap()` panic on a poisoned
`INPUT_LOCK` (`thread_safe_input.rs:99`). -/
inductive SafeError where
  | lockPoisoned
deriving DecidableEq

/-- The four-argument `safe_input!` expansion: acquire `INPUT_LOCK` (line 99;
`unwrap` panics if poisoned — modelled as a fatal `Except.error`, nothing of
the loop runs), then the retry loop. -/
def safe_input {α : Type} (parse : String → Except String α) (desc tyName : String)
    (lockPoisoned : Bool) (field : α) (src : Source) (fuel : Nat) :
    Except SafeError (α × Option α × List (Event α)) :=
  if lockPoisoned then Except.error SafeError.lockPoisoned
  else Except.ok (safe_input_loop parse desc tyName field src fuel)

/-- The retry loop of the four-argument `input_async!` expansion
(`src/async_input.rs`, lines 62-91).  Identical control flow to
`safe_input_loop` (assignment only on `Ok`, diagnostic plus `$on_error` on
both failure paths); only the read-failure diagnostic prefix differs. -/
def input_async {α : Type} (parse : String → Except String α) (desc tyName : String)
    (field : α) : Source → Nat → α × Option α × List (Event α)
  | _, 0 => (field, none, [])
  | src, fuel + 1 =>
    match readLineFrom src with
    | (Except.error err, rest) =>
        ((input_async parse desc tyName field rest fuel).1,
          (input_async parse desc tyName field rest fuel).2.1,
          Event.prompt desc tyName
            :: Event.diagnostic (async_read_fail_diag err)
            :: Event.observe (ObsError.readErr err)
            :: (input_async parse desc tyName field rest fuel).2.2)
    | (Except.ok line, rest) =>
        match parse (rustTrim line) with
        | Except.ok val => (val, some val, [Event.prompt desc tyName, Event.assign val])
        | Except.error e =>
            ((input_async parse desc tyName field rest fuel).1,
              (input_async parse desc tyName field rest fuel).2.1,
              Event.prompt desc tyName
                :: Event.diagnostic (macro_conv_diag (rustTrim line) tyName e)
                :: Event.observe (ObsError.convErr e)
                :: (input_async parse desc tyName field rest fuel).2.2)

/-- Number of prompt events in a trace = number of loop iterations started. -/
def promptCount {α : Type} : List (Event α) → Nat
  | [] => 0
  | Event.prompt _ _ :: tr => promptCount tr + 1
  | _ :: tr => promptCount tr

/-- Number of error-observer invocations recorded in a trace. -/
def observeCount {α : Type} : List (Event α) → Nat
  | [] => 0
  | Event.observe _ :: tr => observeCount tr + 1
  | _ :: tr => observeCount tr

/-- Number of assignments to the destination variable recorded in a trace. -/
def assignCount {α : Type} : List (Event α) → Nat
  | [] => 0
  | Event.assign _ :: tr => assignCount tr + 1
  | _ :: tr => assignCount tr

/-- Number of diagnostic messages recorded in a trace. -/
def diagnosticCount {α : Type} : List (Event α) → Nat
  | [] => 0
  | Event.diagnostic _ :: tr => diagnosticCount tr + 1
  | _ :: tr => diagnosticCount tr

/-- Substring check, worker: does `pat` occur contiguously in the char list? -/
def containsChars (pat : List Char) : List Char → Bool
  | [] => pat.isPrefixOf []
  | c :: cs => pat.isPrefixOf (c :: cs) || containsChars pat cs

/-- `strContains s pat`: `pat` occurs contiguously in `s`. -/
def strContains (s pat : String) : Bool :=
  containsChars pat.data s.data

/-- A demonstration conversion standing in for `i32::from_str` on the inputs
used in the spec's scenarios: strings of decimal digits parse to their value,
everything else (including the empty string) fails with the text of Rust's
`ParseIntError` for an invalid digit. -/
def parseNatDemo (s : String) : Except String Nat :=
  if s.data.isEmpty || !s.data.all Char.isDigit then
    Except.error "invalid digit found in string"
  else
    Except.ok (s.data.foldl (fun a c => a * 10 + (c.toNat - 48)) 0)

/-- The identity conversion, standing in for `String::from_str` (which never
fails). -/
def parseText (s : String) : Except String String := Except.ok s

/-- `read_input` run on an exhausted source never returns a value, whatever
the fuel. -/
def read_input_diverges {α : Type} (parse : String → Except String α)
    (desc tyName : String) (hasObserver : Bool) : Prop :=
  ∀ fuel, (read_input parse desc tyName hasObserver [] fuel).1 = none

/-! ## Unfolding lemmas for the three loops -/

theorem read_input_err_cons {α : Type} (parse : String → Except String α)
    (desc tyName : String) (o : Bool) (e : String) (rest : Source) (n : Nat) :
    read_input parse desc tyName o (Except.error e :: rest) (n + 1) =
      ((read_input parse desc tyName o rest n).1,
        Event.prompt desc tyName :: (read_input parse desc tyName o rest n).2) := by
  simp [read_input, readLineFrom]

theorem read_input_ok_cons_parse_ok {α : Type} {parse : String → Except String α}
    (desc tyName : String) (o : Bool) {line : String} {v : α} (rest : Source) (n : Nat)
    (h : parse (rustTrim line) = Except.ok v) :
    read_input parse desc tyName o (Except.ok line :: rest) (n + 1) =
      (some v, [Event.prompt desc tyName]) := by
  simp [read_input, readLineFrom, h]

theorem read_input_ok_cons_parse_err {α : Type} {parse : String → Except String α}
    (desc tyName : String) (o : Bool) {line e : String} (rest : Source) (n : Nat)
    (h : parse (rustTrim line) = Except.error e) :
    read_input parse desc tyName o (Except.ok line :: rest) (n + 1) =
      ((read_input parse desc tyName o rest n).1,
        Event.prompt desc tyName
          :: Event.diagnostic (read_input_diag (rustTrim line) e)
          :: (read_input parse desc tyName o rest n).2) := by
  simp [read_input, readLineFrom, h]

theorem rustTrim_empty : rustTrim "" = "" := rfl

theorem read_input_nil_parse_err {α : Type} {parse : String → Except String α}
    (desc tyName : String) (o : Bool) {e : String} (n : Nat)
    (h : parse "" = Except.error e) :
    read_input parse desc tyName o [] (n + 1) =
      ((read_input parse desc tyName o [] n).1,
        Event.prompt desc tyName
          :: Event.diagnostic (read_input_diag "" e)
          :: (read_input parse desc tyName o [] n).2) := by
  simp [read_input, readLineFrom, rustTrim_empty, h]

theorem read_input_nil_parse_ok {α : Type} {parse : String → Except String α}
    (desc tyName : String) (o : Bool) {v : α} (n : Nat)
    (h : parse "" = Except.ok v) :
    read_input parse desc tyName o [] (n + 1) = (some v, [Event.prompt desc tyName]) := by
  simp [read_input, readLineFrom, rustTrim_empty, h]

/-! ## Claim theorems -/

/-- **C1.** For every input line whose canonical conversion to the target type
succeeds, `read_input` with that line as the first available line of the
source returns the canonical parse of the trimmed line, after exactly one
loop iteration (the trace is a single prompt). -/
theorem C1_valid_first_line_one_iteration {α : Type}
    (parse : String → Except String α) (desc tyName line : String) (o : Bool)
    (v : α) (rest : Source) (fuel : Nat)
    (h : parse (rustTrim line) = Except.ok v) :
    read_input parse desc tyName o (Except.ok line :: rest) (fuel + 1) =
        (some v, [Event.prompt desc tyName]) ∧
      promptCount (read_input parse desc tyName o (Except.ok line :: rest) (fuel + 1)).2 = 1 := by
  rw [read_input_ok_cons_parse_ok desc tyName o rest fuel h]
  exact ⟨rfl, rfl⟩

theorem C1_witness :
    read_input parseNatDemo "Enter a number" "i32" true [Except.ok "7\n"] 1 =
        (some 7, [Event.prompt "Enter a number" "i32"]) ∧
      promptCount (read_input parseNatDemo "Enter a number" "i32" true
        [Except.ok "7\n"] 1).2 = 1 :=
  C1_valid_first_line_one_iteration parseNatDemo "Enter a number" "i32" "7\n" true 7 [] 0
    (by decide)

/-- **C8.** In the serialized variant (`safe_input!`), if the process-wide
`INPUT_LOCK` was poisoned, lock acquisition (`.lock().unwrap()`) surfaces
this as a fatal condition to the caller: the call yields
`SafeError.lockPoisoned` and none of the loop runs (no value, no events). -/
theorem C8_lock_poisoned_fatal {α : Type} (parse : String → Except String α)
    (desc tyName : String) (field : α) (src : Source) (fuel : Nat) :
    safe_input parse desc tyName true field src fuel =
      Except.error SafeError.lockPoisoned := by
  simp [safe_input]

/-- **C10.** `read_input` never rejects a line for being empty: if the line
is empty or whitespace-only (its trim is `""`) and the conversion accepts the
empty string, the line is accepted on the first attempt and the parse of the
empty string is returned. -/
theorem C10_empty_line_accepted {α : Type} (parse : String → Except String α)
    (desc tyName line : String) (o : Bool) (v : α) (rest : Source) (fuel : Nat)
    (h1 : rustTrim line = "") (h2 : parse "" = Except.ok v) :
    read_input parse desc tyName o (Except.ok line :: rest) (fuel + 1) =
      (some v, [Event.prompt desc tyName]) := by
  have h : parse (rustTrim line) = Except.ok v := by rw [h1]; exact h2
  exact read_input_ok_cons_parse_ok desc tyName o rest fuel h

theorem C10_witness :
    rustTrim "   \n" = "" ∧
      read_input parseText "Enter text" "String" false [Except.ok "   \n"] 1 =
        (some "", [Event.prompt "Enter text" "String"]) :=
  ⟨by decide,
    C10_empty_line_accepted parseText "Enter text" "String" "   \n" false "" [] 0
      (by decide) rfl⟩

/-- **C2.** The claim says the error observer is invoked exactly once per
failed attempt in all variants including the blocking `read_input`.  In
`read_input` the observer is never invoked at all: both
`if let Some(f) = &on_error` blocks (`lib.rs:103` and `lib.rs:116-118`) have
empty bodies, contradicting `lib.rs`'s own doc comment that "custom error
handlers receive the parsing error as an argument".  Evaluating the code at
the failing input "abc" followed by "7" with an observer supplied
(`hasObserver = true`): one conversion failure occurs, the diagnostic is
written, yet zero observer invocations are recorded. -/
theorem C2_read_input_observer_never_invoked :
    read_input parseNatDemo "Enter a number" "i32" true
        [Except.ok "abc\n", Except.ok "7\n"] 2 =
      (some 7,
        [Event.prompt "Enter a number" "i32",
          Event.diagnostic
            "Invalid input 'abc'. Expected type. Error: invalid digit found in string",
          Event.prompt "Enter a number" "i32"]) ∧
      observeCount (read_input parseNatDemo "Enter a number" "i32" true
        [Except.ok "abc\n", Except.ok "7\n"] 2).2 = 0 := by
  constructor <;> decide

/-- **C4 (counterexample).** The claim says that on every read failure a
diagnostic message is written to the sink in all variants including the
blocking `read_input`.  False: `read_input` writes nothing on a read failure
(`lib.rs:102-105` only re-enters the loop).  Concretely, with a failing read
followed by "7", the whole trace is two prompts and zero diagnostics. -/
theorem C4_counterexample_read_input_silent_read_failure :
    read_input parseNatDemo "Enter a number" "i32" true
        [Except.error "boom", Except.ok "7\n"] 2 =
      (some 7,
        [Event.prompt "Enter a number" "i32", Event.prompt "Enter a number" "i32"]) ∧
      diagnosticCount (read_input parseNatDemo "Enter a number" "i32" true
        [Except.error "boom", Except.ok "7\n"] 2).2 = 0 := by
  constructor <;> decide

/-- **C4 (amended).** On a read failure, `safe_input!` and `input_async!`
write a diagnostic to the sink, invoke the observer with the read error, and
restart the loop from the prompt; the blocking `read_input` writes no
diagnostic and invokes no observer, but likewise restarts the loop from the
prompt.  In all three variants the read error is never returned to the
caller: the outcome of the call is exactly the outcome of the same call on
the rest of the source. -/
theorem C4_amended_read_failure_behavior {α : Type} (parse : String → Except String α)
    (desc tyName e : String) (o : Bool) (field : α) (rest : Source) (fuel : Nat) :
    (read_input parse desc tyName o (Except.error e :: rest) (fuel + 1) =
      ((read_input parse desc tyName o rest fuel).1,
        Event.prompt desc tyName :: (read_input parse desc tyName o rest fuel).2)) ∧
    (safe_input_loop parse desc tyName field (Except.error e :: rest) (fuel + 1) =
      ((safe_input_loop parse desc tyName field rest fuel).1,
        (safe_input_loop parse desc tyName field rest fuel).2.1,
        Event.prompt desc tyName
          :: Event.diagnostic (safe_read_fail_diag e)
          :: Event.observe (ObsError.readErr e)
          :: (safe_input_loop parse desc tyName field rest fuel).2.2)) ∧
    (input_async parse desc tyName field (Except.error e :: rest) (fuel + 1) =
      ((input_async parse desc tyName field rest fuel).1,
        (input_async parse desc tyName field rest fuel).2.1,
        Event.prompt desc tyName
          :: Event.diagnostic (async_read_fail_diag e)
          :: Event.observe (ObsError.readErr e)
          :: (input_async parse desc tyName field rest fuel).2.2)) := by
  refine ⟨read_input_err_cons parse desc tyName o e rest fuel, ?_, ?_⟩
  · simp [safe_input_loop, readLineFrom]
  · simp [input_async, readLineFrom]

/-- **C5.** Whenever `read_input` returns a value, that value is the result
of a successful canonical conversion of the trimmed text of some line read
from the source (possibly the empty end-of-stream line); the success branch
of the conversion is the only exit of the loop. -/
theorem C5_value_comes_from_successful_parse {α : Type}
    (parse : String → Except String α) (desc tyName : String) (o : Bool)
    (src : Source) (fuel : Nat) (v : α)
    (h : (read_input parse desc tyName o src fuel).1 = some v) :
    ∃ b, (Except.ok b ∈ src ∨ b = "") ∧ parse (rustTrim b) = Except.ok v := by
  induction fuel generalizing src with
  | zero => simp [read_input] at h
  | succ n ih =>
    match src with
    | [] =>
      cases hp : parse "" with
      | ok w =>
        rw [read_input_nil_parse_ok desc tyName o n hp] at h
        simp at h
        refine ⟨"", Or.inr rfl, ?_⟩
        rw [rustTrim_empty, hp, h]
      | error e =>
        rw [read_input_nil_parse_err desc tyName o n hp] at h
        obtain ⟨b, hb, hpb⟩ := ih [] h
        exact ⟨b, hb, hpb⟩
    | Except.error e :: rest =>
      rw [read_input_err_cons parse desc tyName o e rest n] at h
      obtain ⟨b, hb, hpb⟩ := ih rest h
      refine ⟨b, ?_, hpb⟩
      rcases hb with hb | hb
      · exact Or.inl (List.mem_cons_of_mem _ hb)
      · exact Or.inr hb
    | Except.ok line :: rest =>
      cases hp : parse (rustTrim line) with
      | ok w =>
        rw [read_input_ok_cons_parse_ok desc tyName o rest n hp] at h
        simp at h
        exact ⟨line, Or.inl (List.mem_cons_self _ _), by rw [hp, h]⟩
      | error e =>
        rw [read_input_ok_cons_parse_err desc tyName o rest n hp] at h
        obtain ⟨b, hb, hpb⟩ := ih rest h
        refine ⟨b, ?_, hpb⟩
        rcases hb with hb | hb
        · exact Or.inl (List.mem_cons_of_mem _ hb)
        · exact Or.inr hb

theorem C5_witness :
    ∃ b, ((Except.ok b : Except String String) ∈ ([Except.ok "7\n"] : Source) ∨ b = "") ∧
      parseNatDemo (rustTrim b) = Except.ok 7 :=
  C5_value_comes_from_successful_parse parseNatDemo "Enter a number" "i32" true
    [Except.ok "7\n"] 1 7 (by decide)

/-- Helper for C6: a block of invalid lines is worked through one prompt and
one diagnostic per line, after which the valid line is parsed and returned. -/
theorem read_input_skips_invalid {α : Type} (parse : String → Except String α)
    (desc tyName : String) (o : Bool) (line : String) (v : α)
    (hv : parse (rustTrim line) = Except.ok v) :
    ∀ bad : List String, (∀ b ∈ bad, ∃ e, parse (rustTrim b) = Except.error e) →
      (read_input parse desc tyName o (bad.map Except.ok ++ [Except.ok line])
          (bad.length + 1)).1 = some v ∧
        promptCount (read_input parse desc tyName o
          (bad.map Except.ok ++ [Except.ok line]) (bad.length + 1)).2 =
          bad.length + 1 := by
  intro bad
  induction bad with
  | nil =>
    intro _
    rw [List.map_nil, List.nil_append, List.length_nil,
      read_input_ok_cons_parse_ok desc tyName o [] 0 hv]
    exact ⟨rfl, rfl⟩
  | cons b bs ih =>
    intro hbad
    obtain ⟨e, he⟩ := hbad b (List.mem_cons_self _ _)
    have hrest := ih fun x hx => hbad x (List.mem_cons_of_mem _ hx)
    rw [List.map_cons, List.cons_append, List.length_cons,
      read_input_ok_cons_parse_err desc tyName o _ _ he]
    refine ⟨hrest.1, ?_⟩
    simp [promptCount, hrest.2]

/-- **C6.** Presenting a valid line on the first attempt, versus after `N`
invalid lines, yields the same returned value; only the iteration count
differs (1 versus `N + 1` prompts). -/
theorem C6_same_value_after_invalid_attempts {α : Type}
    (parse : String → Except String α) (desc tyName : String) (o : Bool)
    (line : String) (v : α) (bad : List String)
    (hv : parse (rustTrim line) = Except.ok v)
    (hbad : ∀ b ∈ bad, ∃ e, parse (rustTrim b) = Except.error e) :
    (read_input parse desc tyName o [Except.ok line] 1).1 = some v ∧
      (read_input parse desc tyName o (bad.map Except.ok ++ [Except.ok line])
        (bad.length + 1)).1 = some v ∧
      promptCount (read_input parse desc tyName o [Except.ok line] 1).2 = 1 ∧
      promptCount (read_input parse desc tyName o
        (bad.map Except.ok ++ [Except.ok line]) (bad.length + 1)).2 =
        bad.length + 1 := by
  have hfirst := read_input_ok_cons_parse_ok desc tyName o [] 0 hv
  have hskip := read_input_skips_invalid parse desc tyName o line v hv bad hbad
  refine ⟨?_, hskip.1, ?_, hskip.2⟩
  · rw [hfirst]
  · rw [hfirst]; rfl

theorem C6_witness :
    (read_input parseNatDemo "Enter a number" "i32" true [Except.ok "7\n"] 1).1 =
        some 7 ∧
      (read_input parseNatDemo "Enter a number" "i32" true
        (["abc\n", "12.5\n"].map Except.ok ++ [Except.ok "7\n"])
        (["abc\n", "12.5\n"].length + 1)).1 = some 7 ∧
      promptCount (read_input parseNatDemo "Enter a number" "i32" true
        [Except.ok "7\n"] 1).2 = 1 ∧
      promptCount (read_input parseNatDemo "Enter a number" "i32" true
        (["abc\n", "12.5\n"].map Except.ok ++ [Except.ok "7\n"])
        (["abc\n", "12.5\n"].length + 1)).2 = ["abc\n", "12.5\n"].length + 1 :=
  C6_same_value_after_invalid_attempts parseNatDemo "Enter a number" "i32" true
    "7\n" 7 ["abc\n", "12.5\n"] (by decide)
    (by
      intro b hb
      rcases hb with _ | ⟨_, hb⟩
      · exact ⟨"invalid digit found in string", by decide⟩
      · rcases hb with _ | ⟨_, hb⟩
        · exact ⟨"invalid digit found in string", by decide⟩
        · cases hb)

/-- Helper for C7: if the conversion rejects the empty string, `read_input`
on an exhausted source never returns, whatever the fuel (each iteration the
end-of-stream read succeeds with an empty buffer and the parse fails). -/
theorem read_input_empty_rejecting_diverges {α : Type}
    (parse : String → Except String α) (desc tyName : String) (o : Bool)
    (e : String) (h : parse "" = Except.error e) :
    read_input_diverges parse desc tyName o := by
  intro fuel
  induction fuel with
  | zero => simp [read_input]
  | succ n ih => rw [read_input_nil_parse_err desc tyName o n h]; exact ih

/-- **C7 (counterexample).** The claim says a call to `read_input` on an
exhausted source terminates by propagating a fatal condition.  False: with
an integer-like target type the call never returns, whatever the fuel —
end-of-stream is `Ok(0)` to `read_line` (`lib.rs:102` checks only `is_err`),
so the loop retries forever on the empty buffer. -/
theorem C7_counterexample_exhausted_source_loops_forever :
    read_input_diverges parseNatDemo "Enter a number" "i32" true :=
  read_input_empty_rejecting_diverges parseNatDemo "Enter a number" "i32" true
    "invalid digit found in string" (by decide)

/-- **C7 (amended).** On an exhausted source `read_input` propagates no
fatal condition: the end-of-stream read succeeds with an empty line, so if
the target type's conversion rejects the empty string the loop retries
forever, and if it accepts the empty string its parse is returned after one
iteration. -/
theorem C7_amended_exhausted_source_behavior {α : Type}
    (parse : String → Except String α) (desc tyName : String) (o : Bool) :
    (∀ e, parse "" = Except.error e → read_input_diverges parse desc tyName o) ∧
      (∀ v, parse "" = Except.ok v → ∀ fuel,
        read_input parse desc tyName o [] (fuel + 1) =
          (some v, [Event.prompt desc tyName])) := by
  constructor
  · intro e he
    exact read_input_empty_rejecting_diverges parse desc tyName o e he
  · intro v hv fuel
    exact read_input_nil_parse_ok desc tyName o fuel hv

theorem C7_witness :
    read_input_diverges parseNatDemo "Prompt" "i32" false ∧
      read_input parseText "Enter text" "String" false [] 1 =
        (some "", [Event.prompt "Enter text" "String"]) :=
  ⟨(C7_amended_exhausted_source_behavior parseNatDemo "Prompt" "i32" false).1
      "invalid digit found in string" (by decide),
    (C7_amended_exhausted_source_behavior parseText "Enter text" "String" false).2
      "" rfl 0⟩

/-! ## Substring lemmas -/

theorem containsChars_of_prefix {pat l : List Char} (h : pat <+: l) :
    containsChars pat l = true := by
  cases l with
  | nil => simpa [containsChars] using List.isPrefixOf_iff_prefix.mpr h
  | cons c cs =>
    simp only [containsChars, Bool.or_eq_true]
    exact Or.inl (List.isPrefixOf_iff_prefix.mpr h)

theorem containsChars_cons {pat l : List Char} (c : Char)
    (h : containsChars pat l = true) : containsChars pat (c :: l) = true := by
  simp only [containsChars, Bool.or_eq_true]
  exact Or.inr h

theorem containsChars_of_infix {pat l : List Char} (h : pat <:+: l) :
    containsChars pat l = true := by
  obtain ⟨s, t, rfl⟩ := h
  induction s with
  | nil => exact containsChars_of_prefix ⟨t, rfl⟩
  | cons c s ih => exact containsChars_cons c ih

/-- A string built as `a ++ b ++ c` contains `b`. -/
theorem strContains_of_parts (a b c s : String) (h : s = a ++ b ++ c) :
    strContains s b = true := by
  apply containsChars_of_infix
  refine ⟨a.data, c.data, ?_⟩
  rw [h, String.data_append, String.data_append]

theorem macro_conv_diag_contains_input (input tyName err : String) :
    strContains (macro_conv_diag input tyName err) input = true :=
  strContains_of_parts "Invalid input '" input
    ("'. Expected type: " ++ tyName ++ ". Error: " ++ err) _
    (by simp [macro_conv_diag, String.append_assoc])

theorem macro_conv_diag_contains_tyName (input tyName err : String) :
    strContains (macro_conv_diag input tyName err) tyName = true :=
  strContains_of_parts ("Invalid input '" ++ input ++ "'. Expected type: ") tyName
    (". Error: " ++ err) _
    (by simp [macro_conv_diag, String.append_assoc])

theorem macro_conv_diag_contains_err (input tyName err : String) :
    strContains (macro_conv_diag input tyName err) err = true :=
  strContains_of_parts
    ("Invalid input '" ++ input ++ "'. Expected type: " ++ tyName ++ ". Error: ") err
    "" _ (by simp [macro_conv_diag, String.append_assoc, String.append_empty])

theorem read_input_diag_contains_buffer (buffer err : String) :
    strContains (read_input_diag buffer err) buffer = true :=
  strContains_of_parts "Invalid input '" buffer
    ("'. Expected type. Error: " ++ err) _
    (by simp [read_input_diag, String.append_assoc])

theorem read_input_diag_contains_err (buffer err : String) :
    strContains (read_input_diag buffer err) err = true :=
  strContains_of_parts ("Invalid input '" ++ buffer ++ "'. Expected type. Error: ") err
    "" _ (by simp [read_input_diag, String.append_assoc, String.append_empty])

/-- **C3 (counterexample).** The claim says the conversion-failure diagnostic
contains the target type's display name in all variants including the
blocking `read_input`.  False for `read_input`: its format string is
`"Invalid input '{}'. Expected type. Error: {}"` (`lib.rs:112`), which
interpolates no type name.  Concretely, feeding "abc" with target type `i32`
emits a diagnostic in which "i32" does not occur. -/
theorem C3_counterexample_read_input_diag_lacks_type_name :
    (read_input parseNatDemo "Enter a number" "i32" true
        [Except.ok "abc\n", Except.ok "7\n"] 2).2 =
      [Event.prompt "Enter a number" "i32",
        Event.diagnostic (read_input_diag "abc" "invalid digit found in string"),
        Event.prompt "Enter a number" "i32"] ∧
      strContains (read_input_diag "abc" "invalid digit found in string") "i32" =
        false := by
  constructor <;> decide

/-- **C3 (amended).**  On a conversion failure, `safe_input!` and
`input_async!` emit a diagnostic containing the literal trimmed input text,
the target type's display name, and the conversion error; the blocking
`read_input` emits a diagnostic containing the literal trimmed input text
and the conversion error but not, in general, the type's display name (its
format string interpolates no type name). -/
theorem C3_amended_conversion_diag_contents {α : Type}
    (parse : String → Except String α) (desc tyName line e : String) (o : Bool)
    (field : α) (rest : Source) (fuel : Nat)
    (h : parse (rustTrim line) = Except.error e) :
    (safe_input_loop parse desc tyName field (Except.ok line :: rest) (fuel + 1) =
      ((safe_input_loop parse desc tyName field rest fuel).1,
        (safe_input_loop parse desc tyName field rest fuel).2.1,
        Event.prompt desc tyName
          :: Event.diagnostic (macro_conv_diag (rustTrim line) tyName e)
          :: Event.observe (ObsError.convErr e)
          :: (safe_input_loop parse desc tyName field rest fuel).2.2)) ∧
    (input_async parse desc tyName field (Except.ok line :: rest) (fuel + 1) =
      ((input_async parse desc tyName field rest fuel).1,
        (input_async parse desc tyName field rest fuel).2.1,
        Event.prompt desc tyName
          :: Event.diagnostic (macro_conv_diag (rustTrim line) tyName e)
          :: Event.observe (ObsError.convErr e)
          :: (input_async parse desc tyName field rest fuel).2.2)) ∧
    strContains (macro_conv_diag (rustTrim line) tyName e) (rustTrim line) = true ∧
    strContains (macro_conv_diag (rustTrim line) tyName e) tyName = true ∧
    strContains (macro_conv_diag (rustTrim line) tyName e) e = true ∧
    ((read_input parse desc tyName o (Except.ok line :: rest) (fuel + 1)).2 =
      Event.prompt desc tyName
        :: Event.diagnostic (read_input_diag (rustTrim line) e)
        :: (read_input parse desc tyName o rest fuel).2) ∧
    strContains (read_input_diag (rustTrim line) e) (rustTrim line) = true ∧
    strContains (read_input_diag (rustTrim line) e) e = true := by
  refine ⟨?_, ?_, macro_conv_diag_contains_input _ _ _,
    macro_conv_diag_contains_tyName _ _ _, macro_conv_diag_contains_err _ _ _,
    ?_, read_input_diag_contains_buffer _ _, read_input_diag_contains_err _ _⟩
  · simp [safe_input_loop, readLineFrom, h]
  · simp [input_async, readLineFrom, h]
  · rw [read_input_ok_cons_parse_err desc tyName o rest fuel h]

theorem C3_witness :
    strContains (macro_conv_diag (rustTrim "12.5\n") "i32"
        "invalid digit found in string") (rustTrim "12.5\n") = true ∧
      strContains (macro_conv_diag (rustTrim "12.5\n") "i32"
        "invalid digit found in string") "i32" = true ∧
      strContains (macro_conv_diag (rustTrim "12.5\n") "i32"
        "invalid digit found in string") "invalid digit found in string" = true ∧
      strContains (read_input_diag (rustTrim "12.5\n")
        "invalid digit found in string") (rustTrim "12.5\n") = true ∧
      strContains (read_input_diag (rustTrim "12.5\n")
        "invalid digit found in string") "invalid digit found in string" = true :=
  have h := C3_amended_conversion_diag_contents parseNatDemo "Enter a number" "i32"
    "12.5\n" "invalid digit found in string" true (0 : Nat) [] 0 (by decide)
  ⟨h.2.2.1, h.2.2.2.1, h.2.2.2.2.1, h.2.2.2.2.2.2.1, h.2.2.2.2.2.2.2⟩

/-! ## Unfolding lemmas for the macro loops, and the frame claim C9 -/

theorem safe_input_loop_err_cons {α : Type} (parse : String → Except String α)
    (desc tyName : String) (field : α) (e : String) (rest : Source) (n : Nat) :
    safe_input_loop parse desc tyName field (Except.error e :: rest) (n + 1) =
      ((safe_input_loop parse desc tyName field rest n).1,
        (safe_input_loop parse desc tyName field rest n).2.1,
        Event.prompt desc tyName
          :: Event.diagnostic (safe_read_fail_diag e)
          :: Event.observe (ObsError.readErr e)
          :: (safe_input_loop parse desc tyName field rest n).2.2) := by
  simp [safe_input_loop, readLineFrom]

theorem safe_input_loop_ok_cons_parse_ok {α : Type} {parse : String → Except String α}
    (desc tyName : String) (field : α) {line : String} {v : α} (rest : Source) (n : Nat)
    (h : parse (rustTrim line) = Except.ok v) :
    safe_input_loop parse desc tyName field (Except.ok line :: rest) (n + 1) =
      (v, some v, [Event.prompt desc tyName, Event.assign v]) := by
  simp [safe_input_loop, readLineFrom, h]

theorem safe_input_loop_ok_cons_parse_err {α : Type} {parse : String → Except String α}
    (desc tyName : String) (field : α) {line e : String} (rest : Source) (n : Nat)
    (h : parse (rustTrim line) = Except.error e) :
    safe_input_loop parse desc tyName field (Except.ok line :: rest) (n + 1) =
      ((safe_input_loop parse desc tyName field rest n).1,
        (safe_input_loop parse desc tyName field rest n).2.1,
        Event.prompt desc tyName
          :: Event.diagnostic (macro_conv_diag (rustTrim line) tyName e)
          :: Event.observe (ObsError.convErr e)
          :: (safe_input_loop parse desc tyName field rest n).2.2) := by
  simp [safe_input_loop, readLineFrom, h]

theorem safe_input_loop_nil_parse_ok {α : Type} {parse : String → Except String α}
    (desc tyName : String) (field : α) {v : α} (n : Nat)
    (h : parse "" = Except.ok v) :
    safe_input_loop parse desc tyName field [] (n + 1) =
      (v, some v, [Event.prompt desc tyName, Event.assign v]) := by
  simp [safe_input_loop, readLineFrom, rustTrim_empty, h]

theorem safe_input_loop_nil_parse_err {α : Type} {parse : String → Except String α}
    (desc tyName : String) (field : α) {e : String} (n : Nat)
    (h : parse "" = Except.error e) :
    safe_input_loop parse desc tyName field [] (n + 1) =
      ((safe_input_loop parse desc tyName field [] n).1,
        (safe_input_loop parse desc tyName field [] n).2.1,
        Event.prompt desc tyName
          :: Event.diagnostic (macro_conv_diag "" tyName e)
          :: Event.observe (ObsError.convErr e)
          :: (safe_input_loop parse desc tyName field [] n).2.2) := by
  simp [safe_input_loop, readLineFrom, rustTrim_empty, h]

theorem input_async_err_cons {α : Type} (parse : String → Except String α)
    (desc tyName : String) (field : α) (e : String) (rest : Source) (n : Nat) :
    input_async parse desc tyName field (Except.error e :: rest) (n + 1) =
      ((input_async parse desc tyName field rest n).1,
        (input_async parse desc tyName field rest n).2.1,
        Event.prompt desc tyName
          :: Event.diagnostic (async_read_fail_diag e)
          :: Event.observe (ObsError.readErr e)
          :: (input_async parse desc tyName field rest n).2.2) := by
  simp [input_async, readLineFrom]

theorem input_async_ok_cons_parse_ok {α : Type} {parse : String → Except String α}
    (desc tyName : String) (field : α) {line : String} {v : α} (rest : Source) (n : Nat)
    (h : parse (rustTrim line) = Except.ok v) :
    input_async parse desc tyName field (Except.ok line :: rest) (n + 1) =
      (v, some v, [Event.prompt desc tyName, Event.assign v]) := by
  simp [input_async, readLineFrom, h]

theorem input_async_ok_cons_parse_err {α : Type} {parse : String → Except String α}
    (desc tyName : String) (field : α) {line e : String} (rest : Source) (n : Nat)
    (h : parse (rustTrim line) = Except.error e) :
    input_async parse desc tyName field (Except.ok line :: rest) (n + 1) =
      ((input_async parse desc tyName field rest n).1,
        (input_async parse desc tyName field rest n).2.1,
        Event.prompt desc tyName
          :: Event.diagnostic (macro_conv_diag (rustTrim line) tyName e)
          :: Event.observe (ObsError.convErr e)
          :: (input_async parse desc tyName field rest n).2.2) := by
  simp [input_async, readLineFrom, h]

theorem input_async_nil_parse_ok {α : Type} {parse : String → Except String α}
    (desc tyName : String) (field : α) {v : α} (n : Nat)
    (h : parse "" = Except.ok v) :
    input_async parse desc tyName field [] (n + 1) =
      (v, some v, [Event.prompt desc tyName, Event.assign v]) := by
  simp [input_async, readLineFrom, rustTrim_empty, h]

theorem input_async_nil_parse_err {α : Type} {parse : String → Except String α}
    (desc tyName : String) (field : α) {e : String} (n : Nat)
    (h : parse "" = Except.error e) :
    input_async parse desc tyName field [] (n + 1) =
      ((input_async parse desc tyName field [] n).1,
        (input_async parse desc tyName field [] n).2.1,
        Event.prompt desc tyName
          :: Event.diagnostic (macro_conv_diag "" tyName e)
          :: Event.observe (ObsError.convErr e)
          :: (input_async parse desc tyName field [] n).2.2) := by
  simp [input_async, readLineFrom, rustTrim_empty, h]

/-- Helper for C9 (`safe_input!` half): if the loop does not break within the
fuel the destination keeps its prior value and no assignment is recorded; if
it breaks with `v` the destination holds `v` and exactly one assignment is
recorded. -/
theorem safe_input_loop_assign_spec {α : Type} (parse : String → Except String α)
    (desc tyName : String) (f0 : α) (src : Source) (fuel : Nat) :
    ((safe_input_loop parse desc tyName f0 src fuel).2.1 = none →
      (safe_input_loop parse desc tyName f0 src fuel).1 = f0 ∧
        assignCount (safe_input_loop parse desc tyName f0 src fuel).2.2 = 0) ∧
      ∀ v, (safe_input_loop parse desc tyName f0 src fuel).2.1 = some v →
        (safe_input_loop parse desc tyName f0 src fuel).1 = v ∧
          assignCount (safe_input_loop parse desc tyName f0 src fuel).2.2 = 1 := by
  induction fuel generalizing src with
  | zero =>
    refine ⟨fun _ => ⟨rfl, rfl⟩, fun v h => ?_⟩
    simp [safe_input_loop] at h
  | succ n ih =>
    match src with
    | [] =>
      cases hp : parse "" with
      | ok w =>
        rw [safe_input_loop_nil_parse_ok desc tyName f0 n hp]
        refine ⟨fun h => by simp at h, fun v h => ?_⟩
        simp at h
        subst h
        exact ⟨rfl, rfl⟩
      | error e =>
        rw [safe_input_loop_nil_parse_err desc tyName f0 n hp]
        refine ⟨fun h => ?_, fun v h => ?_⟩
        · exact ⟨((ih []).1 h).1, by simp [assignCount, ((ih []).1 h).2]⟩
        · exact ⟨((ih []).2 v h).1, by simp [assignCount, ((ih []).2 v h).2]⟩
    | Except.error e :: rest =>
      rw [safe_input_loop_err_cons parse desc tyName f0 e rest n]
      refine ⟨fun h => ?_, fun v h => ?_⟩
      · exact ⟨((ih rest).1 h).1, by simp [assignCount, ((ih rest).1 h).2]⟩
      · exact ⟨((ih rest).2 v h).1, by simp [assignCount, ((ih rest).2 v h).2]⟩
    | Except.ok line :: rest =>
      cases hp : parse (rustTrim line) with
      | ok w =>
        rw [safe_input_loop_ok_cons_parse_ok desc tyName f0 rest n hp]
        refine ⟨fun h => by simp at h, fun v h => ?_⟩
        simp at h
        subst h
        exact ⟨rfl, rfl⟩
      | error e =>
        rw [safe_input_loop_ok_cons_parse_err desc tyName f0 rest n hp]
        refine ⟨fun h => ?_, fun v h => ?_⟩
        · exact ⟨((ih rest).1 h).1, by simp [assignCount, ((ih rest).1 h).2]⟩
        · exact ⟨((ih rest).2 v h).1, by simp [assignCount, ((ih rest).2 v h).2]⟩

/-- Helper for C9 (`input_async!` half): same statement for the suspending
variant's loop. -/
theorem input_async_assign_spec {α : Type} (parse : String → Except String α)
    (desc tyName : String) (f0 : α) (src : Source) (fuel : Nat) :
    ((input_async parse desc tyName f0 src fuel).2.1 = none →
      (input_async parse desc tyName f0 src fuel).1 = f0 ∧
        assignCount (input_async parse desc tyName f0 src fuel).2.2 = 0) ∧
      ∀ v, (input_async parse desc tyName f0 src fuel).2.1 = some v →
        (input_async parse desc tyName f0 src fuel).1 = v ∧
          assignCount (input_async parse desc tyName f0 src fuel).2.2 = 1 := by
  induction fuel generalizing src with
  | zero =>
    refine ⟨fun _ => ⟨rfl, rfl⟩, fun v h => ?_⟩
    simp [input_async] at h
  | succ n ih =>
    match src with
    | [] =>
      cases hp : parse "" with
      | ok w =>
        rw [input_async_nil_parse_ok desc tyName f0 n hp]
        refine ⟨fun h => by simp at h, fun v h => ?_⟩
        simp at h
        subst h
        exact ⟨rfl, rfl⟩
      | error e =>
        rw [input_async_nil_parse_err desc tyName f0 n hp]
        refine ⟨fun h => ?_, fun v h => ?_⟩
        · exact ⟨((ih []).1 h).1, by simp [assignCount, ((ih []).1 h).2]⟩
        · exact ⟨((ih []).2 v h).1, by simp [assignCount, ((ih []).2 v h).2]⟩
    | Except.error e :: rest =>
      rw [input_async_err_cons parse desc tyName f0 e rest n]
      refine ⟨fun h => ?_, fun v h => ?_⟩
      · exact ⟨((ih rest).1 h).1, by simp [assignCount, ((ih rest).1 h).2]⟩
      · exact ⟨((ih rest).2 v h).1, by simp [assignCount, ((ih rest).2 v h).2]⟩
    | Except.ok line :: rest =>
      cases hp : parse (rustTrim line) with
      | ok w =>
        rw [input_async_ok_cons_parse_ok desc tyName f0 rest n hp]
        refine ⟨fun h => by simp at h, fun v h => ?_⟩
        simp at h
        subst h
        exact ⟨rfl, rfl⟩
      | error e =>
        rw [input_async_ok_cons_parse_err desc tyName f0 rest n hp]
        refine ⟨fun h => ?_, fun v h => ?_⟩
        · exact ⟨((ih rest).1 h).1, by simp [assignCount, ((ih rest).1 h).2]⟩
        · exact ⟨((ih rest).2 v h).1, by simp [assignCount, ((ih rest).2 v h).2]⟩

/-- **C9.** In the `safe_input!` and `input_async!` macros the destination
variable is assigned exactly once, on the successful conversion attempt:
if the loop breaks with value `v` the destination holds `v` and the trace
records exactly one assignment; a run that never succeeds (within any fuel)
leaves the destination at its prior value with zero assignments recorded. -/
theorem C9_field_assigned_once_on_success {α : Type}
    (parse : String → Except String α) (desc tyName : String) (f0 : α)
    (src : Source) (fuel : Nat) :
    (((safe_input_loop parse desc tyName f0 src fuel).2.1 = none →
        (safe_input_loop parse desc tyName f0 src fuel).1 = f0 ∧
          assignCount (safe_input_loop parse desc tyName f0 src fuel).2.2 = 0) ∧
      ∀ v, (safe_input_loop parse desc tyName f0 src fuel).2.1 = some v →
        (safe_input_loop parse desc tyName f0 src fuel).1 = v ∧
          assignCount (safe_input_loop parse desc tyName f0 src fuel).2.2 = 1) ∧
    (((input_async parse desc tyName f0 src fuel).2.1 = none →
        (input_async parse desc tyName f0 src fuel).1 = f0 ∧
          assignCount (input_async parse desc tyName f0 src fuel).2.2 = 0) ∧
      ∀ v, (input_async parse desc tyName f0 src fuel).2.1 = some v →
        (input_async parse desc tyName f0 src fuel).1 = v ∧
          assignCount (input_async parse desc tyName f0 src fuel).2.2 = 1) :=
  ⟨safe_input_loop_assign_spec parse desc tyName f0 src fuel,
    input_async_assign_spec parse desc tyName f0 src fuel⟩

theorem C9_witness :
    ((safe_input_loop parseNatDemo "Enter a number" "i32" 0
        [Except.ok "abc\n"] 1).1 = 0 ∧
      assignCount (safe_input_loop parseNatDemo "Enter a number" "i32" 0
        [Except.ok "abc\n"] 1).2.2 = 0) ∧
    ((input_async parseNatDemo "Enter a number" "i32" 0 [Except.ok "7\n"] 1).1 = 7 ∧
      assignCount (input_async parseNatDemo "Enter a number" "i32" 0
        [Except.ok "7\n"] 1).2.2 = 1) :=
  ⟨(C9_field_assigned_once_on_success parseNatDemo "Enter a number" "i32" 0
      [Except.ok "abc\n"] 1).1.1 (by decide),
    (C9_field_assigned_once_on_success parseNatDemo "Enter a number" "i32" 0
      [Except.ok "7\n"] 1).2.2 7 (by decide)⟩

end MacroInput
